import Mathlib

set_option linter.unusedVariables false
set_option maxRecDepth 100000

/-!
Verification development for the tarrow trading system.

The definitions below are a shallow embedding of the repository's core:

* `src/Client/Core/stock.py` / `src/Client/Core/trade.py` — the per-symbol
  trade lifecycle engine (`Stock`, `Trade`, order maps, fills, safety
  features).
* `src/Client/Core/trademonitor.py` — the trade monitors.
* `src/Client/Core/gateway.py` — the transport channel's receive path.
* `src/Servers/backtest.py` — the backtest server: connection brokering,
  bar synchronization and the readiness barrier.

Conventions: Python `datetime` values are integers (minutes); prices are
rationals; Python dicts are association lists preserving insertion order;
console reporting (`report`) is I/O and is not modelled.  Calls to the
signaller hooks are recorded in an explicit event log so that their
occurrence is observable.
-/

/-- Python dict lookup `d[k]` / `k in d` on an insertion-ordered dict. -/
def dictLookup {α : Type} (k : ℕ) : List (ℕ × α) → Option α
  | [] => none
  | (k', v) :: rest => if k' = k then some v else dictLookup k rest

/-- Python dict assignment `d[k] = v`: overwrite in place, or append a new key. -/
def dictInsert {α : Type} (k : ℕ) (v : α) : List (ℕ × α) → List (ℕ × α)
  | [] => [(k, v)]
  | (k', v') :: rest =>
      if k' = k then (k, v) :: rest else (k', v') :: dictInsert k v rest

/-- Python `del d[k]` (keys are unique, so removing the first hit suffices). -/
def dictDelete {α : Type} (k : ℕ) : List (ℕ × α) → List (ℕ × α)
  | [] => []
  | (k', v) :: rest => if k' = k then rest else (k', v) :: dictDelete k rest

/-- `list(d)`: the keys of a dict in insertion order. -/
def dictKeys {α : Type} (d : List (ℕ × α)) : List ℕ := d.map Prod.fst

/-- In-place mutation of the `i`-th element of a Python list. -/
def listModify {α : Type} (f : α → α) : List α → ℕ → List α
  | [], _ => []
  | a :: as, 0 => f a :: as
  | a :: as, n + 1 => a :: listModify f as n

/-- Python `int(q)` on a numeric value: truncation toward zero. -/
def pyInt (q : ℚ) : ℤ := Int.tdiv q.num (q.den : ℤ)

/-- `PriceBar` (src/Client/Core/pricebar.py): one OHLCV sample.  The wire
`Time` string has already been normalized to a semantic time (minutes). -/
structure PriceBar where
  time : ℤ
  «open» : ℚ
  close : ℚ
  high : ℚ
  low : ℚ
  volume : ℤ
deriving DecidableEq

/-- The signaller hooks fired by the trade lifecycle (src/Client/Core/signals.py).
The default `NullHandler` performs no I/O; we log each invocation so that
hook calls are observable in the model.  Trades are identified by their
index in `Stock.trades`. -/
inductive SigEvent where
  | startOrder (tradeIdx : ℕ)
  | closeOrder (tradeIdx : ℕ)
deriving DecidableEq

/-- `Trade` (src/Client/Core/trade.py): one directional position.  Python
aliases `Trade` objects between `Stock.trades` and the pending-order dicts;
here the order dicts store the trade's index into `Stock.trades` instead. -/
structure Trade where
  action : ℤ
  shares : ℤ
  status : Bool
  open_time : ℤ
  close_time : ℤ
  close_asap : Bool
  open_price : Option ℚ
  close_price : Option ℚ
  percent_return : Option ℚ
  profit : Option ℚ
deriving DecidableEq

/-- `Stock` (src/Client/Core/stock.py): per-symbol state.  The pending-order
dicts map a locally unique order id to the index of the owning trade in
`trades`.  `signals` is the log of signaller hook invocations.  In Python
`current_time` starts as `None`; a trade created before any bar would raise,
and the engine never does so, so the field is a plain integer here. -/
structure Stock where
  trade_amount : ℤ
  minutes_forward : ℤ
  stop_loss_threshold : Option ℚ
  take_gain_threshold : Option ℚ
  current_bar : Option PriceBar
  current_time : ℤ
  previous_time : ℤ
  trades : List Trade
  open_orders : List (ℕ × ℕ)
  close_orders : List (ℕ × ℕ)
  unique_id : ℕ
  signals : List SigEvent
deriving DecidableEq

/-- The defaults assigned in `Stock.__init__` (thresholds 100 = 10000%). -/
def initialStock : Stock :=
  { trade_amount := 1000
    minutes_forward := 30
    stop_loss_threshold := some 100
    take_gain_threshold := some 100
    current_bar := none
    current_time := 0
    previous_time := 0
    trades := []
    open_orders := []
    close_orders := []
    unique_id := 0
    signals := [] }

/-- `Stock.addOrder` (also reached as `gateway.makeOrder`): mint a fresh,
locally unique order id. -/
def Stock.addOrder (s : Stock) : Stock × ℕ :=
  ({ s with unique_id := s.unique_id + 1 }, s.unique_id + 1)

/-- `Stock.handleOpenOrder`: mint an order id via the gateway and register the
trade (by index) to receive its fill price later. -/
def Stock.handleOpenOrder (s : Stock) (tradeIdx : ℕ) : Stock :=
  let p := Stock.addOrder s
  { p.1 with open_orders := dictInsert p.2 tradeIdx p.1.open_orders }

/-- `Stock.handleCloseOrder`: mint an order id and register the trade (by
index) in the pending close-order dict. -/
def Stock.handleCloseOrder (s : Stock) (tradeIdx : ℕ) : Stock :=
  let p := Stock.addOrder s
  { p.1 with close_orders := dictInsert p.2 tradeIdx p.1.close_orders }

/-- `Trade.openSuccess` (field updates; reporting is I/O and not modelled). -/
def Trade.openSuccess (share_price : ℚ) (t : Trade) : Trade :=
  { t with status := true, open_price := some share_price }

/-- `Trade.closeSuccess`: record the close price, the percent return
`(close/open - 1) * action` and the profit `(close - open) * shares * action`.
Python would raise if `open_price` were still `None`; every modelled flow
fills the open order first, so that case leaves the derived fields `none`. -/
def Trade.closeSuccess (share_price : ℚ) (t : Trade) : Trade :=
  { t with
      status := false
      close_price := some share_price
      percent_return := t.open_price.map (fun op => (share_price / op - 1) * (t.action : ℚ))
      profit := t.open_price.map (fun op => (share_price - op) * (t.shares : ℚ) * (t.action : ℚ)) }

/-- `Stock.startOrder`: create a `Trade` sized from the current bar's close.
`Trade.__init__` registers the open order (`handleOpenOrder`) and fires the
signaller's `startOrder` hook before the trade is appended to `trades`;
the new trade will occupy index `s.trades.length`. -/
def Stock.startOrder (s : Stock) (buyOrSell : ℤ) : Stock :=
  match s.current_bar with
  | none => s
  | some bar =>
    let current_price := bar.close
    let shares := Int.fdiv (s.trade_amount * 100) (pyInt (current_price * 100))
    let idx := s.trades.length
    let t : Trade :=
      { action := buyOrSell
        shares := shares
        status := false
        open_time := s.current_time
        close_time := s.current_time + s.minutes_forward
        close_asap := false
        open_price := none
        close_price := none
        percent_return := none
        profit := none }
    let s1 := Stock.handleOpenOrder s idx
    let s2 := { s1 with signals := s1.signals ++ [SigEvent.startOrder idx] }
    { s2 with trades := s2.trades ++ [t] }

/-- `Stock.setOrderFilled`: resolve a pending order id against the open-order
dict first, then the close-order dict; an unknown id falls through with no
effect.  (The unused `amountFilled` argument is omitted.) -/
def Stock.setOrderFilled (s : Stock) (order_id : ℕ) (averagePrice : ℚ) : Stock :=
  match dictLookup order_id s.open_orders with
  | some i =>
      { s with
          trades := listModify (Trade.openSuccess averagePrice) s.trades i
          open_orders := dictDelete order_id s.open_orders }
  | none =>
    match dictLookup order_id s.close_orders with
    | some i =>
        { s with
            trades := listModify (Trade.closeSuccess averagePrice) s.trades i
            close_orders := dictDelete order_id s.close_orders }
    | none => s

/-- `Trade.close` for the trade at index `i`: stamp `close_time`; if the trade
is filled (`status` true) issue a close order, otherwise flag `close_asap`;
in both branches fire the signaller's `closeOrder` hook. -/
def Trade.close (s : Stock) (i : ℕ) : Stock :=
  match s.trades[i]? with
  | none => s
  | some t =>
    let s1 := { s with trades := listModify (fun tr => { tr with close_time := s.current_time }) s.trades i }
    let s2 :=
      if t.status = true then
        Stock.handleCloseOrder s1 i
      else
        { s1 with trades := listModify (fun tr => { tr with close_asap := true }) s1.trades i }
    { s2 with signals := s2.signals ++ [SigEvent.closeOrder i] }

/-- `Trade.checkStopLoss`: with a `None` threshold the check passes; otherwise
compare `(1 - current/open) * action` against the threshold and close on
breach.  Python reads `stock.current_bar.close` and `self.open_price` and
would raise were either missing; modelled flows always provide both. -/
def Trade.checkStopLoss (s : Stock) (i : ℕ) (threshold : Option ℚ) : Stock × Bool :=
  match threshold with
  | none => (s, true)
  | some th =>
    match s.trades[i]?, s.current_bar with
    | some t, some bar =>
      match t.open_price with
      | some trade_price =>
        let loss_percentage := (1 - bar.close / trade_price) * (t.action : ℚ)
        if th < loss_percentage then (Trade.close s i, false) else (s, true)
      | none => (s, true)
    | _, _ => (s, true)

/-- `Trade.checkTakeprofit`: symmetric to the stop loss with
`(current/open - 1) * action`. -/
def Trade.checkTakeprofit (s : Stock) (i : ℕ) (threshold : Option ℚ) : Stock × Bool :=
  match threshold with
  | none => (s, true)
  | some th =>
    match s.trades[i]?, s.current_bar with
    | some t, some bar =>
      match t.open_price with
      | some trade_price =>
        let gain_percentage := (bar.close / trade_price - 1) * (t.action : ℚ)
        if th < gain_percentage then (Trade.close s i, false) else (s, true)
      | none => (s, true)
    | _, _ => (s, true)

/-- `Trade.runSafetyFeatures`: unfilled trades return immediately; a trade
flagged `close_asap` is closed now; then the stop-loss and take-profit checks
run, each short-circuiting the rest on a triggered close. -/
def Trade.runSafetyFeatures (s : Stock) (i : ℕ) : Stock :=
  match s.trades[i]? with
  | none => s
  | some t =>
    if t.status = false then s
    else
      let s1 := if t.close_asap then Trade.close s i else s
      let r1 := Trade.checkStopLoss s1 i s1.stop_loss_threshold
      if r1.2 = false then r1.1
      else (Trade.checkTakeprofit r1.1 i r1.1.take_gain_threshold).1

/-- `Stock.getCurrentTrades`, as the indices of the trades with `status` true
(the Python method returns the list of live objects; the loop that consumes
it reads each object's current state, so the model snapshots indices). -/
def Stock.getCurrentTradeIdxs (s : Stock) : List ℕ :=
  (List.range s.trades.length).filter (fun i =>
    match s.trades[i]? with
    | some t => t.status
    | none => false)

/-- `Stock.processNewBar`.  The base class's `makeDecision` is a strategy
hook; the decision it produces for this bar (`1` buy, `-1` sell, `0` none,
per the comment in `makeDecision`) is passed in, and a nonzero decision calls
`startOrder`.  Then every pending open/close order id — including an order
just created by `makeDecision` on this very pass — is resolved at the
current bar's `open`; finally every live trade is closed if past its
`close_time` and otherwise has its safety features run.  The stock-wide
`runSafetyFeatures` is a `pass`. -/
def Stock.processNewBar (s : Stock) (decision : ℤ) : Stock :=
  let s0 := if decision ≠ 0 then Stock.startOrder s decision else s
  match s0.current_bar with
  | none => s0
  | some bar =>
    let s1 :=
      if 0 < s0.open_orders.length + s0.close_orders.length then
        let order_ids := dictKeys s0.open_orders ++ dictKeys s0.close_orders
        order_ids.foldl (fun st oid => Stock.setOrderFilled st oid bar.«open») s0
      else s0
    (Stock.getCurrentTradeIdxs s1).foldl
      (fun st i =>
        match st.trades[i]? with
        | none => st
        | some t =>
          if t.close_time ≤ st.current_time then Trade.close st i
          else Trade.runSafetyFeatures st i)
      s1

/-- `Stock.addLivePriceBar`: record the bar as current (the wire-format time
normalization of `adjustBarTime` is already folded into `PriceBar.time`)
and process it. -/
def Stock.addLivePriceBar (s : Stock) (price_bar : PriceBar) (decision : ℤ) : Stock :=
  let s1 :=
    { s with
        previous_time := s.current_time
        current_bar := some price_bar
        current_time := price_bar.time }
  Stock.processNewBar s1 decision

/-- `TimeLimitTradeMonitor.notify_single` (src/Client/Core/trademonitor.py):
the monitor is constructed with `time_limit` minutes (`self.timedelta`);
`False` (close) is returned when `trade.open_time + timedelta >= bar.time`. -/
def TimeLimitTradeMonitor.notify_single (time_limit : ℤ) (trade : Trade)
    (current_bar : PriceBar) : Bool :=
  if current_bar.time ≤ trade.open_time + time_limit then false else true

/-- `BoundaryTradeMonitor.notify_single`: the basis-point return of the
current bar's close against the trade's `close_price` reference, checked
against the stop-loss and then the take-profit thresholds.  Python raises a
`TypeError` when a needed value is `None` (`close_price` on a trade that
never closed, or an unset threshold reached by the comparison chain);
those raises are modelled as `Except.error`. -/
def BoundaryTradeMonitor.notify_single (stop_loss_bp take_profit_bp : Option ℚ)
    (trade : Trade) (current_bar : PriceBar) : Except String Bool :=
  match trade.close_price with
  | none => Except.error "TypeError: close_price is None"
  | some ref =>
    let current_return_bp := (current_bar.close / ref - 1) * 10000
    match stop_loss_bp with
    | none => Except.error "TypeError: comparison with None"
    | some sl =>
      if sl < -current_return_bp then Except.ok false
      else
        match take_profit_bp with
        | none => Except.error "TypeError: comparison with None"
        | some tp =>
          if tp < current_return_bp then Except.ok false
          else Except.ok true

/-- `MultiTradeMonitor.notify_single`: children are run in order, but in the
source the `return True` statement sits inside the `for` loop, so the first
iteration always returns and the remaining children are never reached; an
empty child list falls off the loop and returns Python's `None`. -/
def MultiTradeMonitor.notify_single (children : List (Trade → PriceBar → Bool))
    (trade : Trade) (current_bar : PriceBar) : Option Bool :=
  match children with
  | [] => none
  | monitor :: _ =>
      if monitor trade current_bar = false then some false else some true

/-- A wire message as seen by the client's gateway: the `RequestID` used for
correlation plus an opaque payload standing for the remaining fields. -/
structure GMessage where
  requestID : ℕ
  payload : ℕ
deriving DecidableEq

/-- The value produced by `Gateway._receive`: either a single message dict
(from the polling loop) or the whole cached list object that the cache
branch returns. -/
inductive RecvResult where
  | message (m : GMessage)
  | cachedList (ms : List GMessage)
deriving DecidableEq

/-- The cache update in `Gateway._receive` for a message whose id is not
awaited: start a one-element list under its id, or append to the existing
list. -/
def cacheStore (m : GMessage) (cache : List (ℕ × List GMessage)) :
    List (ℕ × List GMessage) :=
  match dictLookup m.requestID cache with
  | none => dictInsert m.requestID [m] cache
  | some l => dictInsert m.requestID (l ++ [m]) cache

/-- The polling loop of `Gateway._receive`: messages arrive in order from
`incoming`; a message whose id is awaited is returned as is, any other is
cached; when no message arrives within the timeout a `RuntimeError` is
raised (with `ignore_timeout` the loop instead polls forever, so an
exhausted stream means the call blocks — either way no value is produced). -/
def Gateway.receiveLoop (cache : List (ℕ × List GMessage)) (request_ids : List ℕ) :
    List GMessage → Except String (RecvResult × List (ℕ × List GMessage))
  | [] => Except.error "Timeout"
  | m :: rest =>
      if m.requestID ∈ request_ids then Except.ok (RecvResult.message m, cache)
      else Gateway.receiveLoop (cacheStore m cache) request_ids rest

/-- `Gateway._receive`: first scan the awaited ids against the local cache —
a hit returns `self.cached_results[request_id]`, i.e. the entire cached list,
and leaves the cache untouched; on a miss, poll the inbound channel. -/
def Gateway._receive (cache : List (ℕ × List GMessage)) (request_ids : List ℕ)
    (incoming : List GMessage) :
    Except String (RecvResult × List (ℕ × List GMessage)) :=
  match request_ids.find? (fun rid =>
      match dictLookup rid cache with
      | some l => decide (0 < l.length)
      | none => false) with
  | some rid => Except.ok (RecvResult.cachedList ((dictLookup rid cache).getD []), cache)
  | none => Gateway.receiveLoop cache request_ids incoming

/-- The broker's reply to one connection handshake
(`BacktestServer.listenForConnectionRequests`): either the allocated
`{In, Out}` port pair under a fresh channel key, or the `{"Error": ...}`
payload sent when port allocation fails. -/
inductive ConnReply where
  | granted (inPort outPort key : ℕ)
  | error
deriving DecidableEq

/-- The port probe: starting from a fixed base, try 500 sequential ports and
return the first that binds.  `occ p = true` means port `p` is already
bound. -/
def probePort (occ : ℕ → Bool) (base : ℕ) : Option ℕ :=
  ((List.range 500).find? (fun i => occ (base + i) = false)).map (fun i => base + i)

/-- `BacktestServer.listenForConnectionRequests`, driven by the number of
expected clients still to serve.  Per handshake: pick the key as one more
than the largest key issued so far, probe the inbound range (base 103141)
and then the outbound range (base 104141); a successfully bound port stays
bound for the rest of the run.  When a whole range fails, the raised
`RuntimeError` is caught, the error payload is sent as the handshake reply,
and the method `return`s — ending enrollment for the session. -/
def listenForConnectionRequests (occ : ℕ → Bool) (keys : List ℕ) :
    ℕ → List ConnReply
  | 0 => []
  | num_clients + 1 =>
    let key := keys.foldl max 0 + 1
    match probePort occ 103141 with
    | none => [ConnReply.error]
    | some inP =>
      match probePort (fun p => p = inP || occ p) 104141 with
      | none => [ConnReply.error]
      | some outP =>
          ConnReply.granted inP outP key ::
            listenForConnectionRequests (fun p => p = inP || p = outP || occ p)
              (keys ++ [key]) num_clients

/-- A message arriving on a client channel during the server's listen loop.
`parseInput` routes by `Type`; only `"Finalise"` touches the readiness set,
so the other request types are collapsed into one constructor. -/
inductive ServerMsg where
  | finalise (requestID : ℕ)
  | other
deriving DecidableEq

/-- One received message, tagged with the connection it arrived on. -/
abbrev BEvent := ℕ × ServerMsg

/-- The barrier of `BacktestServer.sendBars`: starting from readiness set
`ready`, process arriving messages in order.  `connectionFinalised` records
`ready[connectionID] = RequestID` and stops the listen loop once
`len(ready) == len(sockets_in)`.  The result is whether the barrier released,
with the final readiness set; an exhausted event stream with the barrier
still closed means the server blocks forever. -/
def barrierRun (enrolled : List ℕ) (ready : List (ℕ × ℕ)) :
    List BEvent → Bool × List (ℕ × ℕ)
  | [] => (false, ready)
  | (connectionID, msg) :: rest =>
    match msg with
    | ServerMsg.other => barrierRun enrolled ready rest
    | ServerMsg.finalise rid =>
      let ready' := dictInsert connectionID rid ready
      if ready'.length = enrolled.length then (true, ready')
      else barrierRun enrolled ready' rest

/-- One `Live Bar` message: `(requestID, symbol, bar)` as packaged by
`sendBars`; the bar itself is reduced to its `UnconvertedTime`, the only
field the scheduling logic reads. -/
structure LiveBarMsg where
  requestID : ℕ
  symbol : ℕ
  barTime : ℕ
deriving DecidableEq

/-- One synchronized tick as delivered: for each connection (in the order the
server first queued a bar for it), the batch sent between the
`Prepare for Live Bars` and `End of Live Bars` markers. -/
abbrev Tick := List (ℕ × List LiveBarMsg)

/-- Append a packaged bar to a connection's outbound batch
(`connection_bars[connectionID]`), creating the entry on first use. -/
def addPackage (cb : Tick) (connectionID : ℕ) (p : LiveBarMsg) : Tick :=
  match cb with
  | [] => [(connectionID, [p])]
  | (c, ps) :: rest =>
      if c = connectionID then (c, ps ++ [p]) :: rest
      else (c, ps) :: addPackage rest connectionID p

/-- The front timestamps of all symbols with a non-empty pending sequence. -/
def frontTimes (bars : List (ℕ × List ℕ)) : List ℕ :=
  bars.filterMap (fun sl => sl.2.head?)

/-- `earliest_time = min(bars[symbol][0]['UnconvertedTime'] for non-empty symbols)`;
`none` when every sequence is empty (Python's `min([])` raises there). -/
def earliestTime (bars : List (ℕ × List ℕ)) : Option ℕ :=
  (frontTimes bars).min?

/-- The delivery step of one `sendBars` iteration: walk the subscription
registry in order, skip symbols whose pending sequence is empty or whose
front bar is later than `earliest`, and queue the front bar to every
`(connectionID, requestID)` subscribed to the symbol. -/
def buildTick (subs : List (ℕ × List (ℕ × ℕ))) (bars : List (ℕ × List ℕ))
    (earliest : ℕ) : Tick :=
  subs.foldl
    (fun cb sp =>
      match dictLookup sp.1 bars with
      | none => cb
      | some l =>
        match l.head? with
        | none => cb
        | some t0 =>
          if earliest < t0 then cb
          else sp.2.foldl (fun cb2 cr => addPackage cb2 cr.1 ⟨cr.2, sp.1, t0⟩) cb)
    []

/-- The pop step of `sendBars`: every symbol holding **more than one** pending
bar is popped (`self.bars[symbol] = self.bars[symbol][1:]`), whether or not
its front bar was just delivered. -/
def popBars (bars : List (ℕ × List ℕ)) : List (ℕ × List ℕ) :=
  bars.map (fun sl => if 1 < sl.2.length then (sl.1, sl.2.tail) else sl)

/-- `do_continue`: true when some symbol still holds more than one bar. -/
def anyMore (bars : List (ℕ × List ℕ)) : Bool :=
  bars.any (fun sl => 1 < sl.2.length)

/-- Total number of pending bars, the loop's termination measure. -/
def totalBars (bars : List (ℕ × List ℕ)) : ℕ :=
  (bars.map (fun sl => sl.2.length)).sum

/-- `BacktestServer.sendBars`: per iteration, deliver the front bars matching
the earliest pending timestamp, pop, then clear the readiness set and block
in the listen loop until every enrolled channel has sent `Finalise`
(`eventss` supplies each iteration's arriving messages).  The returned list
is the sequence of delivered ticks; a barrier that never releases blocks the
server, so no further tick is delivered.  `fuel` bounds the recursion; any
`fuel > totalBars bars` is enough to never cut the loop short
(`sendBars_fuel_stable`). -/
def sendBars (fuel : ℕ) (enrolled : List ℕ) (subs : List (ℕ × List (ℕ × ℕ)))
    (bars : List (ℕ × List ℕ)) (eventss : List (List BEvent)) : List Tick :=
  match fuel with
  | 0 => []
  | fuel + 1 =>
    match earliestTime bars with
    | none => []
    | some earliest =>
      let tick := buildTick subs bars earliest
      let do_continue := anyMore bars
      let bars' := popBars bars
      let released := (barrierRun enrolled [] (eventss.headD [])).1
      if do_continue then
        if released then
          tick :: sendBars fuel enrolled subs bars' eventss.tail
        else [tick]
      else [tick]

/-! ### Concrete inputs used by the claim evaluations and witnesses -/

/-- Concrete trade with an unfilled open order (`status` false). -/
def tradeUnfilled : Trade := ⟨1, 10, false, 0, 30, false, none, none, none, none⟩

/-- Concrete stock holding `tradeUnfilled` with its open order pending. -/
def stockUnfilled : Stock :=
  ⟨1000, 30, some 100, some 100, none, 5, 0, [tradeUnfilled], [(1, 0)], [], 1, []⟩

/-- Concrete trade already filled (`status` true) and flagged `close_asap`. -/
def tradeAsap : Trade := ⟨1, 10, true, 0, 30, true, some 99, none, none, none⟩

/-- Concrete stock holding `tradeAsap`, with the safety thresholds unset. -/
def stockAsap : Stock :=
  ⟨1000, 30, none, none, some ⟨6, 99, 100, 101, 98, 0⟩, 6, 5, [tradeAsap], [], [], 0, []⟩

/-- Bar N: the decision bar, with open 99 and close 100 at time 0. -/
def barN : PriceBar := ⟨0, 99, 100, 101, 98, 0⟩

/-- Bar N+1: the next bar, with open 101 at time 1. -/
def barN1 : PriceBar := ⟨1, 101, 100, 102, 99, 0⟩

/-- The stock after processing bar N with strategy decision `1`. -/
def stockAfterBarN : Stock := Stock.addLivePriceBar initialStock barN 1

/-- The stock after additionally processing bar N+1 with decision `0`. -/
def stockAfterBarN1 : Stock := Stock.addLivePriceBar stockAfterBarN barN1 0

/-- The claim's scenario subscriptions: symbol 0 ("A") and symbol 1 ("B"),
each subscribed by connection 1 under request ids 10 and 11. -/
def scenarioSubs : List (ℕ × List (ℕ × ℕ)) := [(0, [(1, 10)]), (1, [(1, 11)])]

/-- The claim's scenario pending bars: A at 09:00/09:01/09:02 and B at
09:00/09:03, written as minutes 900, 901, 902 and 900, 903. -/
def scenarioBars : List (ℕ × List ℕ) := [(0, [900, 901, 902]), (1, [900, 903])]

/-- Barrier inputs for the scenario: connection 1 finalises after every tick. -/
def scenarioEvents : List (List BEvent) :=
  List.replicate 4 [(1, ServerMsg.finalise 7)]

/-- All 500 probed inbound ports (103141 up to 103640) are occupied. -/
def occAllIn : ℕ → Bool := fun p => decide (103141 ≤ p ∧ p < 103641)

/-! ### Helper lemmas about the dict and list primitives -/

theorem dictLookup_dictInsert_self {α : Type} (k : ℕ) (v : α) (d : List (ℕ × α)) :
    dictLookup k (dictInsert k v d) = some v := by
  induction d with
  | nil => simp [dictInsert, dictLookup]
  | cons p rest ih =>
    obtain ⟨k', v'⟩ := p
    by_cases h : k' = k
    · subst h
      simp [dictInsert, dictLookup]
    · simp [dictInsert, dictLookup, h, ih]

theorem listModify_getElem?_self {α : Type} (f : α → α) (l : List α) (i : ℕ) :
    (listModify f l i)[i]? = (l[i]?).map f := by
  induction l generalizing i with
  | nil => cases i <;> simp [listModify]
  | cons a as ih => cases i <;> simp [listModify, ih]

/-! ### Claim C6 — the time-limit monitor -/

/-- Claim C6: the claim says `TimeLimitTradeMonitor.notify_single` returns
`False` exactly when the elapsed time since the trade's open exceeds the
configured duration.  Evaluating the code shows the comparison is inverted:
with a 30-minute limit and a trade opened at time 0, the monitor returns
`False` (close) at a bar only 10 minutes later (elapsed `10 ≤ 30`), and
returns `True` (keep open) at a bar 40 minutes later (elapsed `40 > 30`). -/
theorem time_limit_monitor_inverted_eval :
    TimeLimitTradeMonitor.notify_single 30
        ⟨1, 10, true, 0, 30, false, some 99, none, none, none⟩
        ⟨10, 99, 100, 101, 98, 0⟩ = false ∧
      (10 : ℤ) - 0 ≤ 30 ∧
      TimeLimitTradeMonitor.notify_single 30
        ⟨1, 10, true, 0, 30, false, some 99, none, none, none⟩
        ⟨40, 99, 100, 101, 98, 0⟩ = true ∧
      (30 : ℤ) < 40 - 0 := by
  refine ⟨?_, ?_, ?_, ?_⟩ <;> decide

/-! ### Claim C7 — the boundary monitor's stop loss -/

/-- Claim C7: for every Open trade with a recorded close reference price and
a boundary monitor configured with `stop_loss_bp = 50`, a current bar whose
close is a 0.6% (60 bp) adverse move against the reference (close =
ref · (1 − 0.006)) makes `notify_single` return `False` that tick. -/
theorem boundary_stop_loss_fires (t : Trade) (b : PriceBar) (tp : Option ℚ) (ref : ℚ)
    (hstatus : t.status = true) (href : t.close_price = some ref) (hpos : 0 < ref)
    (hmove : b.close = ref * (994 / 1000)) :
    BoundaryTradeMonitor.notify_single (some 50) tp t b = Except.ok false := by
  have hne : ref ≠ 0 := ne_of_gt hpos
  simp only [BoundaryTradeMonitor.notify_single, href, hmove]
  rw [mul_comm ref, mul_div_assoc, div_self hne, mul_one]
  rw [if_pos (by norm_num)]

/-- Witness for C7 at a concrete input: reference price 100, current close
99.4 (a 0.6% drop), take-profit unset. -/
theorem boundary_stop_loss_fires_witness :
    BoundaryTradeMonitor.notify_single (some 50) none
        ⟨1, 10, true, 0, 30, false, some 99, some 100, none, none⟩
        ⟨10, 99, 994 / 10, 100, 98, 0⟩ = Except.ok false :=
  boundary_stop_loss_fires _ _ none 100 rfl rfl (by norm_num) (by norm_num)

/-! ### Claim C8 — the composite monitor short-circuits on its first child -/

/-- Claim C8: for a non-empty child list, `MultiTradeMonitor.notify_single`
returns exactly the first child's verdict (`False` when it returns `False`,
`True` when it returns `True`), and the result does not depend on the later
children — they are never consulted. -/
theorem multi_monitor_first_child_only
    (monitor : Trade → PriceBar → Bool) (rest rest' : List (Trade → PriceBar → Bool))
    (t : Trade) (b : PriceBar) :
    MultiTradeMonitor.notify_single (monitor :: rest) t b = some (monitor t b) ∧
      MultiTradeMonitor.notify_single (monitor :: rest) t b
        = MultiTradeMonitor.notify_single (monitor :: rest') t b := by
  refine ⟨?_, ?_⟩
  · simp only [MultiTradeMonitor.notify_single]
    cases h : monitor t b <;> simp [h]
  · simp only [MultiTradeMonitor.notify_single]

/-! ### Claim C9 — resolving an unknown order id is a no-op -/

/-- Claim C9: `Stock.setOrderFilled` with an order id pending in neither the
open-order nor the close-order dict raises nothing and returns the stock
state completely unchanged — same trades, same pending-order dicts. -/
theorem setOrderFilled_unknown_id_noop (s : Stock) (order_id : ℕ) (p : ℚ)
    (h1 : dictLookup order_id s.open_orders = none)
    (h2 : dictLookup order_id s.close_orders = none) :
    Stock.setOrderFilled s order_id p = s := by
  simp [Stock.setOrderFilled, h1, h2]

/-- Witness for C9: a stock holding one trade and one pending order of each
kind, resolved against the absent id 99. -/
theorem setOrderFilled_unknown_id_noop_witness :
    Stock.setOrderFilled
        ⟨1000, 30, some 100, some 100, none, 0, 0,
          [⟨1, 10, false, 0, 30, false, none, none, none, none⟩], [(1, 0)], [(2, 0)], 2, []⟩
        99 5
      = ⟨1000, 30, some 100, some 100, none, 0, 0,
          [⟨1, 10, false, 0, 30, false, none, none, none, none⟩], [(1, 0)], [(2, 0)], 2, []⟩ :=
  setOrderFilled_unknown_id_noop _ 99 5 (by decide) (by decide)

/-! ### Claim C5 — the receive path's out-of-order cache -/

/-- Claim C5: the claim says every value returned by the transport's receive
is a single response message whose `RequestID` is among the awaited ids,
including when served from the cache.  Evaluating `Gateway._receive` with the
awaited id 5 and a message cached under 5 shows the cache branch instead
returns the entire cached *list* object (and leaves it in the cache rather
than consuming it); callers such as `Gateway.request` index the result as a
dict and would fail on it. -/
theorem receive_cache_returns_list_eval :
    Gateway._receive [(5, [⟨5, 0⟩])] [5] []
      = Except.ok (RecvResult.cachedList [⟨5, 0⟩], [(5, [⟨5, 0⟩])]) := by
  rfl

/-! ### Claim C10 — closing an unfilled trade is deferred -/

/-- Claim C10: a close order is never issued for a trade whose open order is
unfilled.  (1) `Trade.close` on a trade with `status` false leaves the
pending close-order dict and the order-id counter untouched, sets the
trade's `close_asap` flag (stamping `close_time`), and still fires the
signaller's `closeOrder` hook.  (2) A safety-features pass over a trade with
`status` false does nothing.  (3) Once the open order has been filled
(`status` true), a safety-features pass over a `close_asap` trade issues the
close order, registering the trade under the freshly minted order id. -/
theorem close_deferred_until_filled :
    (∀ (s : Stock) (i : ℕ) (t : Trade), s.trades[i]? = some t → t.status = false →
        (Trade.close s i).close_orders = s.close_orders ∧
        (Trade.close s i).unique_id = s.unique_id ∧
        (Trade.close s i).trades[i]?
          = some { t with close_time := s.current_time, close_asap := true } ∧
        (Trade.close s i).signals = s.signals ++ [SigEvent.closeOrder i]) ∧
    (∀ (s : Stock) (i : ℕ) (t : Trade), s.trades[i]? = some t → t.status = false →
        Trade.runSafetyFeatures s i = s) ∧
    (∀ (s : Stock) (i : ℕ) (t : Trade), s.trades[i]? = some t → t.status = true →
        t.close_asap = true → s.stop_loss_threshold = none → s.take_gain_threshold = none →
        dictLookup (s.unique_id + 1) (Trade.runSafetyFeatures s i).close_orders = some i) := by
  refine ⟨?_, ?_, ?_⟩
  · intro s i t hget hstatus
    refine ⟨?_, ?_, ?_, ?_⟩ <;>
      simp [Trade.close, hget, hstatus, listModify_getElem?_self]
  · intro s i t hget hstatus
    simp [Trade.runSafetyFeatures, hget, hstatus]
  · intro s i t hget hstatus hasap hsl htg
    simp only [Trade.runSafetyFeatures, Trade.close, Stock.handleCloseOrder,
      Stock.addOrder, hget, hstatus, hasap]
    simp only [Trade.checkStopLoss, Trade.checkTakeprofit, hsl, htg]
    simp only [Bool.false_eq_true, if_false, if_true]
    exact dictLookup_dictInsert_self _ _ _

/-- Witness for C10 at the two concrete stocks. -/
theorem close_deferred_until_filled_witness :
    ((Trade.close stockUnfilled 0).close_orders = stockUnfilled.close_orders ∧
      (Trade.close stockUnfilled 0).unique_id = stockUnfilled.unique_id ∧
      (Trade.close stockUnfilled 0).trades[0]?
        = some { tradeUnfilled with close_time := stockUnfilled.current_time,
                                    close_asap := true } ∧
      (Trade.close stockUnfilled 0).signals
        = stockUnfilled.signals ++ [SigEvent.closeOrder 0]) ∧
    Trade.runSafetyFeatures stockUnfilled 0 = stockUnfilled ∧
    dictLookup (stockAsap.unique_id + 1)
        (Trade.runSafetyFeatures stockAsap 0).close_orders = some 0 :=
  ⟨close_deferred_until_filled.1 stockUnfilled 0 tradeUnfilled rfl rfl,
   close_deferred_until_filled.2.1 stockUnfilled 0 tradeUnfilled rfl rfl,
   close_deferred_until_filled.2.2 stockAsap 0 tradeAsap rfl rfl rfl rfl rfl⟩

/-! ### Claim C1 — decision fill timing -/

/-- Claim C1: the claim says a trade created by a nonzero decision at bar N
stays pending until bar N+1 and is then filled at bar N+1's open (101 here),
never at a price of bar N.  Evaluating the code on the claim's own scenario
(decision 1 at bar N with close 100, next bar open 101): `processNewBar`
calls `makeDecision` *before* resolving pending orders, so the freshly
created open order is resolved in the very same pass at bar N's open — the
trade is already `Open` with `open_price = 99` (bar N's open) after bar N,
and bar N+1's open of 101 is never used. -/
theorem decision_filled_same_bar_eval :
    (stockAfterBarN.trades[0]?).map (fun t => (t.status, t.open_price))
        = some (true, some 99) ∧
      (stockAfterBarN1.trades[0]?).map (fun t => (t.status, t.open_price))
        = some (true, some 99) := by
  refine ⟨?_, ?_⟩ <;> with_unfolding_all decide

/-! ### Claim C2 — bar synchronization delivery and popping -/

/-- Claim C2: the claim says each tick pops exactly the front bar of each
symbol whose front timestamp equals the global minimum, and that the
scenario yields ticks 09:00{A,B}, 09:01{A}, 09:02{A}, 09:03{B}.  Evaluating
the code on the scenario: the pop step (`backtest.py` line 392-395) pops
every symbol holding more than one bar — whether or not its front was
delivered — and never pops a symbol's last bar, and the loop stops as soon
as no symbol holds more than one bar.  The run therefore delivers only
three ticks, 09:00{A,B}, 09:01{A}, 09:02{A}, and B's 09:03 bar is never
delivered to anyone. -/
theorem sendBars_scenario_eval :
    sendBars 10 [1] scenarioSubs scenarioBars scenarioEvents
        = [[(1, [⟨10, 0, 900⟩, ⟨11, 1, 900⟩])],
           [(1, [⟨10, 0, 901⟩])],
           [(1, [⟨10, 0, 902⟩])]] ∧
      (sendBars 10 [1] scenarioSubs scenarioBars scenarioEvents).all
          (fun tick => tick.all (fun cp => cp.2.all (fun p => p.barTime != 903)))
        = true := by
  refine ⟨?_, ?_⟩ <;> decide

/-! ### Claim C4 — broker behavior when port allocation fails -/

/-- Counterexample to claim C4 as stated: with two expected clients and the
whole inbound probe range occupied, the broker replies to the first
handshake with the error payload and then serves *no* further handshake —
the enrollment loop ends with a single reply instead of continuing to the
second expected client. -/
theorem broker_stops_after_alloc_failure_cex :
    listenForConnectionRequests occAllIn [] 2 = [ConnReply.error] ∧
      (listenForConnectionRequests occAllIn [] 2).length ≠ 2 := by
  refine ⟨?_, ?_⟩ <;> decide

/-- Claim C4 (amended): if every one of the 500 probed ports of the inbound
direction is occupied, the broker replies to that handshake with an explicit
error payload (no silent hang) and then `return`s, abandoning enrollment:
no remaining expected client's handshake is processed. -/
theorem broker_error_then_return (num_clients : ℕ) (occ : ℕ → Bool) (keys : List ℕ)
    (hocc : ∀ i, i < 500 → occ (103141 + i) = true) :
    listenForConnectionRequests occ keys (num_clients + 1) = [ConnReply.error] := by
  have hprobe : probePort occ 103141 = none := by
    unfold probePort
    rw [List.find?_eq_none.mpr]
    · rfl
    · intro i hi
      rw [List.mem_range] at hi
      simp [hocc i hi]
  rw [listenForConnectionRequests, hprobe]

/-- Witness for the amended C4 at a concrete occupancy: every port of the
inbound probe range is taken and two clients are expected. -/
theorem broker_error_then_return_witness :
    listenForConnectionRequests occAllIn [] 2 = [ConnReply.error] :=
  broker_error_then_return 1 occAllIn [] (by decide)

/-! ### Claim C3 — the readiness barrier gates the next tick -/

theorem dictKeys_nil {α : Type} : dictKeys ([] : List (ℕ × α)) = [] := rfl

theorem dictKeys_cons {α : Type} (p : ℕ × α) (d : List (ℕ × α)) :
    dictKeys (p :: d) = p.1 :: dictKeys d := rfl

theorem dictKeys_length {α : Type} (d : List (ℕ × α)) :
    (dictKeys d).length = d.length := by
  simp [dictKeys]

theorem dictInsert_cons_eq {α : Type} (k : ℕ) (v v' : α) (rest : List (ℕ × α)) :
    dictInsert k v ((k, v') :: rest) = (k, v) :: rest := by
  simp [dictInsert]

theorem dictInsert_cons_ne {α : Type} {k k' : ℕ} (v v' : α) (rest : List (ℕ × α))
    (h : k' ≠ k) : dictInsert k v ((k', v') :: rest) = (k', v') :: dictInsert k v rest := by
  simp [dictInsert, h]

theorem mem_dictKeys_dictInsert {α : Type} {c k : ℕ} {v : α} {d : List (ℕ × α)} :
    c ∈ dictKeys (dictInsert k v d) ↔ c = k ∨ c ∈ dictKeys d := by
  induction d with
  | nil => simp [dictInsert, dictKeys]
  | cons p rest ih =>
    obtain ⟨k', v'⟩ := p
    by_cases h : k' = k
    · subst h
      rw [dictInsert_cons_eq, dictKeys_cons, dictKeys_cons]
      simp only [List.mem_cons]
      tauto
    · rw [dictInsert_cons_ne _ _ _ h, dictKeys_cons, dictKeys_cons]
      simp only [List.mem_cons, ih]
      tauto

theorem dictKeys_nodup_dictInsert {α : Type} (k : ℕ) (v : α) {d : List (ℕ × α)}
    (h : (dictKeys d).Nodup) : (dictKeys (dictInsert k v d)).Nodup := by
  induction d with
  | nil => simp [dictInsert, dictKeys]
  | cons p rest ih =>
    obtain ⟨k', v'⟩ := p
    rw [dictKeys_cons, List.nodup_cons] at h
    by_cases hk : k' = k
    · subst hk
      rw [dictInsert_cons_eq, dictKeys_cons, List.nodup_cons]
      exact h
    · rw [dictInsert_cons_ne _ _ _ hk, dictKeys_cons, List.nodup_cons]
      refine ⟨?_, ih h.2⟩
      intro hmem
      rcases mem_dictKeys_dictInsert.mp hmem with h2 | h2
      · exact hk h2
      · exact h.1 h2

theorem mem_of_nodup_subset_length {l₁ l₂ : List ℕ} (h1 : l₁.Nodup) (h2 : l₂.Nodup)
    (hsub : ∀ x ∈ l₁, x ∈ l₂) (hlen : l₂.length ≤ l₁.length) :
    ∀ x ∈ l₂, x ∈ l₁ := by
  have hfin : l₁.toFinset ⊆ l₂.toFinset := by
    intro x hx
    rw [List.mem_toFinset] at hx ⊢
    exact hsub x hx
  have hcard : l₂.toFinset.card ≤ l₁.toFinset.card := by
    rw [List.toFinset_card_of_nodup h1, List.toFinset_card_of_nodup h2]
    exact hlen
  have heq := Finset.eq_of_subset_of_card_le hfin hcard
  intro x hx
  rw [← List.mem_toFinset, heq, List.mem_toFinset]
  exact hx

/-- If the barrier releases, every enrolled channel was either already in
the readiness set or sent a `Finalise` among the processed events. -/
theorem barrierRun_release_covered (enrolled : List ℕ) (hen : enrolled.Nodup) :
    ∀ (events : List BEvent) (ready : List (ℕ × ℕ)),
      (dictKeys ready).Nodup →
      (∀ x ∈ dictKeys ready, x ∈ enrolled) →
      (∀ e ∈ events, e.1 ∈ enrolled) →
      (barrierRun enrolled ready events).1 = true →
      ∀ c ∈ enrolled,
        c ∈ dictKeys ready ∨ ∃ rid, ((c, ServerMsg.finalise rid) : BEvent) ∈ events := by
  intro events
  induction events with
  | nil =>
    intro ready _ _ _ hrun
    simp [barrierRun] at hrun
  | cons e rest ih =>
    intro ready hnd hsub hev hrun c hc
    obtain ⟨ch, msg⟩ := e
    cases msg with
    | other =>
      have hrun' : (barrierRun enrolled ready rest).1 = true := by
        simpa [barrierRun] using hrun
      rcases ih ready hnd hsub (fun e he => hev e (List.mem_cons_of_mem _ he)) hrun' c hc with
        h | ⟨rid, hr⟩
      · exact Or.inl h
      · exact Or.inr ⟨rid, List.mem_cons_of_mem _ hr⟩
    | finalise rid0 =>
      have hch : ch ∈ enrolled := hev (ch, ServerMsg.finalise rid0) (List.mem_cons_self _ _)
      have hsub' : ∀ x ∈ dictKeys (dictInsert ch rid0 ready), x ∈ enrolled := by
        intro x hx
        rcases mem_dictKeys_dictInsert.mp hx with h | h
        · exact h ▸ hch
        · exact hsub x h
      have hnd' : (dictKeys (dictInsert ch rid0 ready)).Nodup :=
        dictKeys_nodup_dictInsert ch rid0 hnd
      by_cases hlen : (dictInsert ch rid0 ready).length = enrolled.length
      · have hlen' : enrolled.length ≤ (dictKeys (dictInsert ch rid0 ready)).length := by
          rw [dictKeys_length, hlen]
        have hcov := mem_of_nodup_subset_length hnd' hen hsub' hlen' c hc
        rcases mem_dictKeys_dictInsert.mp hcov with h | h
        · refine Or.inr ⟨rid0, ?_⟩
          rw [h]
          exact List.mem_cons_self _ _
        · exact Or.inl h
      · have hrun' : (barrierRun enrolled (dictInsert ch rid0 ready) rest).1 = true := by
          simpa [barrierRun, hlen] using hrun
        rcases ih (dictInsert ch rid0 ready) hnd' hsub'
            (fun e he => hev e (List.mem_cons_of_mem _ he)) hrun' c hc with h | ⟨rid, hr⟩
        · rcases mem_dictKeys_dictInsert.mp h with h2 | h2
          · refine Or.inr ⟨rid0, ?_⟩
            rw [h2]
            exact List.mem_cons_self _ _
          · exact Or.inl h2
        · exact Or.inr ⟨rid, List.mem_cons_of_mem _ hr⟩

theorem headD_eq_getD_zero {α : Type} (l : List α) (d : α) : l.headD d = l.getD 0 d := by
  cases l <;> rfl

theorem tail_getD {α : Type} (l : List α) (j : ℕ) (d : α) :
    l.tail.getD j d = l.getD (j + 1) d := by
  cases l <;> rfl

/-- Claim C3: no channel is sent any bar of tick K+1 until every enrolled
channel has sent `Finalise` after the delivery of tick K.  Formally: the
server's readiness set is cleared before each barrier, the barrier only
releases once the readiness set covers all enrolled channels, and the server
polls only enrolled channels — so whenever the run delivers a tick K+1, the
messages processed during barrier K contain a `Finalise` from every enrolled
channel. -/
theorem barrier_gates_next_tick
    (fuel : ℕ) (enrolled : List ℕ) (subs : List (ℕ × List (ℕ × ℕ)))
    (bars : List (ℕ × List ℕ)) (eventss : List (List BEvent)) (k : ℕ)
    (hen : enrolled.Nodup)
    (hch : ∀ es ∈ eventss, ∀ e ∈ es, e.1 ∈ enrolled)
    (hlen : k + 1 < (sendBars fuel enrolled subs bars eventss).length) :
    ∀ c ∈ enrolled, ∃ rid, ((c, ServerMsg.finalise rid) : BEvent) ∈ eventss.getD k [] := by
  induction fuel generalizing bars eventss k with
  | zero => simp [sendBars] at hlen
  | succ fuel ih =>
    rw [sendBars] at hlen
    cases he : earliestTime bars with
    | none =>
      rw [he] at hlen
      simp at hlen
    | some earliest =>
      rw [he] at hlen
      simp only at hlen
      cases hdc : anyMore bars with
      | false =>
        rw [hdc] at hlen
        simp at hlen
      | true =>
        rw [hdc] at hlen
        cases hrel : (barrierRun enrolled [] (eventss.headD [])).1 with
        | false =>
          rw [hrel] at hlen
          simp at hlen
        | true =>
          rw [hrel] at hlen
          simp only [if_true, List.length_cons] at hlen
          cases k with
          | zero =>
            intro c hc
            have hev : ∀ e ∈ eventss.headD [], e.1 ∈ enrolled := by
              cases eventss with
              | nil => simp
              | cons es rest => exact hch es (List.mem_cons_self _ _)
            have hcov := barrierRun_release_covered enrolled hen (eventss.headD []) []
              (by simp [dictKeys]) (by simp [dictKeys]) hev hrel c hc
            rcases hcov with h | ⟨rid, hr⟩
            · simp [dictKeys] at h
            · exact ⟨rid, by rwa [← headD_eq_getD_zero]⟩
          | succ j =>
            intro c hc
            have hch' : ∀ es ∈ eventss.tail, ∀ e ∈ es, e.1 ∈ enrolled := by
              intro es hes
              exact hch es (List.mem_of_mem_tail hes)
            have hlen' : j + 1 < (sendBars fuel enrolled subs (popBars bars) eventss.tail).length := by
              omega
            have := ih (popBars bars) eventss.tail j hch' hlen' c hc
            rwa [tail_getD] at this

/-- Witness for C3: two enrolled channels, a two-tick run, both channels
finalising after each tick; instantiated at channel 2 and barrier 0. -/
theorem barrier_gates_next_tick_witness :
    ∃ rid, ((2, ServerMsg.finalise rid) : BEvent)
      ∈ ([(1, ServerMsg.finalise 3), (2, ServerMsg.finalise 4)] : List BEvent) := by
  have h := barrier_gates_next_tick 5 [1, 2] [(0, [(1, 10), (2, 20)])] [(0, [900, 901])]
      [[(1, ServerMsg.finalise 3), (2, ServerMsg.finalise 4)],
       [(1, ServerMsg.finalise 3), (2, ServerMsg.finalise 4)]] 0
      (by decide) (by decide) (by decide) 2 (by decide)
  exact h

/-! ### Fuel adequacy for `sendBars`

The Python loop is unbounded; `sendBars` carries a structural fuel.  The
lemmas below show any fuel of at least `totalBars bars` reproduces the loop
exactly: adding more fuel beyond that changes nothing, so the runs evaluated
above are the full runs of the source loop. -/

theorem totalBars_popBars_le (bars : List (ℕ × List ℕ)) :
    totalBars (popBars bars) ≤ totalBars bars := by
  induction bars with
  | nil => simp [popBars, totalBars]
  | cons sl rest ih =>
    simp only [popBars, totalBars, List.map_cons, List.sum_cons] at *
    by_cases h : 1 < sl.2.length
    · simp only [if_pos h, List.length_tail]
      omega
    · simp only [if_neg h]
      omega

theorem totalBars_popBars_lt (bars : List (ℕ × List ℕ)) (h : anyMore bars = true) :
    totalBars (popBars bars) < totalBars bars := by
  induction bars with
  | nil => simp [anyMore] at h
  | cons sl rest ih =>
    simp only [anyMore, List.any_cons, Bool.or_eq_true, decide_eq_true_eq] at h
    simp only [popBars, totalBars, List.map_cons, List.sum_cons]
    rcases h with h | h
    · have := totalBars_popBars_le rest
      simp only [popBars, totalBars] at this
      simp only [if_pos h, List.length_tail]
      omega
    · have hrest := ih h
      simp only [popBars, totalBars] at hrest
      by_cases h1 : 1 < sl.2.length
      · simp only [if_pos h1, List.length_tail]
        omega
      · simp only [if_neg h1]
        omega

theorem earliestTime_of_totalBars_zero (bars : List (ℕ × List ℕ))
    (h : totalBars bars = 0) : earliestTime bars = none := by
  induction bars with
  | nil => rfl
  | cons sl rest ih =>
    simp only [totalBars, List.map_cons, List.sum_cons] at h
    have h1 : sl.2.length = 0 := by omega
    have h2 : totalBars rest = 0 := by simp only [totalBars]; omega
    have h3 : sl.2 = [] := List.eq_nil_of_length_eq_zero h1
    simp only [earliestTime, frontTimes, List.filterMap_cons, h3, List.head?_nil]
    have := ih h2
    simpa [earliestTime, frontTimes] using this

theorem sendBars_fuel_stable (fuel : ℕ) :
    ∀ (enrolled : List ℕ) (subs : List (ℕ × List (ℕ × ℕ))) (bars : List (ℕ × List ℕ))
      (eventss : List (List BEvent)), totalBars bars ≤ fuel →
      sendBars (fuel + 1) enrolled subs bars eventss
        = sendBars fuel enrolled subs bars eventss := by
  induction fuel with
  | zero =>
    intro enrolled subs bars eventss hb
    have h0 : totalBars bars = 0 := Nat.le_zero.mp hb
    rw [sendBars, sendBars, earliestTime_of_totalBars_zero bars h0]
  | succ fuel ih =>
    intro enrolled subs bars eventss hb
    rw [sendBars]
    conv_rhs => rw [sendBars]
    cases he : earliestTime bars with
    | none => rfl
    | some earliest =>
      simp only
      cases hdc : anyMore bars with
      | false => rfl
      | true =>
        cases hrel : (barrierRun enrolled [] (eventss.headD [])).1 with
        | false => rfl
        | true =>
          simp only [if_true]
          have hlt := totalBars_popBars_lt bars hdc
          rw [ih enrolled subs (popBars bars) eventss.tail (by omega)]
